import Mathlib

/-!
Verification of the exception-handling runtime in `src/Except.c` / `src/Except.h`
(with the exception classes declared there and in `src/Test.c`).

The development shallowly embeds the data model and the engine routines:
the class tree and `ExceptIsDerived`, the per-frame exception record
(`struct _Except`), `ExceptThrow`, `ExceptCatch`, `ExceptFinally`,
`ExceptThrowSignal`, the debug auditor `ExceptCheck` / `ExceptCheckBegin`,
and an event-labelled transition system for the scope/state machine that the
`try` / `catch` / `finally` macros drive.
-/

namespace ExceptC

/-- The exception classes statically declared in the repository:
`Throwable` and the subtree defined in `src/Except.c` lines 129-139, the
internal `ReturnEvent` (line 161), and the two test classes defined in
`src/Test.c` lines 28-31. -/
inductive CClass where
  | Throwable
  | Exception
  | OutOfMemoryError
  | FailedAssertion
  | RuntimeException
  | AbnormalTermination
  | ArithmeticException
  | IllegalInstruction
  | SegmentationFault
  | BusError
  | ReturnEvent
  | Level1Exception
  | Level2Exception
deriving DecidableEq, Repr, Fintype

open CClass

/-- `struct _Class.parent`: the parent links exactly as written in the
`except_class_define` lines.  `Throwable` and `ReturnEvent` have parent
`NULL` (both are initialized with parent `NULL` in `src/Except.c`). -/
def parent : CClass → Option CClass
  | Throwable => none
  | Exception => some Throwable
  | OutOfMemoryError => some Exception
  | FailedAssertion => some Exception
  | RuntimeException => some Exception
  | AbnormalTermination => some RuntimeException
  | ArithmeticException => some RuntimeException
  | IllegalInstruction => some RuntimeException
  | SegmentationFault => some RuntimeException
  | BusError => some RuntimeException
  | ReturnEvent => none
  | Level1Exception => some Exception
  | Level2Exception => some Level1Exception

/-- `struct _Class.name`: the stringized class names (`#child` in
`except_class_define`). -/
def className : CClass → String
  | Throwable => "Throwable"
  | Exception => "Exception"
  | OutOfMemoryError => "OutOfMemoryError"
  | FailedAssertion => "FailedAssertion"
  | RuntimeException => "RuntimeException"
  | AbnormalTermination => "AbnormalTermination"
  | ArithmeticException => "ArithmeticException"
  | IllegalInstruction => "IllegalInstruction"
  | SegmentationFault => "SegmentationFault"
  | BusError => "BusError"
  | ReturnEvent => "ReturnEvent"
  | Level1Exception => "Level1Exception"
  | Level2Exception => "Level2Exception"

/-- Number of parent links from a class to its root (`Throwable` or, for
`ReturnEvent`, itself).  Used as the fuel bound for the parent-chain walk. -/
def classDepth : CClass → Nat
  | Throwable => 0
  | Exception => 1
  | OutOfMemoryError => 2
  | FailedAssertion => 2
  | RuntimeException => 2
  | AbnormalTermination => 3
  | ArithmeticException => 3
  | IllegalInstruction => 3
  | SegmentationFault => 3
  | BusError => 3
  | ReturnEvent => 0
  | Level1Exception => 2
  | Level2Exception => 3

/-- Fuel-indexed embedding of the loop body of `ExceptIsDerived`
(`src/Except.c` lines 880-888):

    while (class->parent != NULL && class != base)
        class = class->parent;
    return class == base;

One unit of fuel is one loop iteration; when the fuel runs out the loop is cut
short and the final comparison is returned (with sufficient fuel this case is
never reached, see `isDerivedAux_stable`). -/
def isDerivedAux : Nat → CClass → CClass → Bool
  | 0, c, base => c == base
  | fuel + 1, c, base =>
    match parent c with
    | none => c == base
    | some p => if c == base then true else isDerivedAux fuel p base

/-- `ExceptIsDerived`: the walk with enough fuel to reach the root. -/
def ExceptIsDerived (c base : CClass) : Bool :=
  isDerivedAux (classDepth c + 1) c base

/-- The chain of parent links starting at `c` (`c` itself included),
fuel-indexed like the walk. -/
def chainAux : Nat → CClass → List CClass
  | 0, c => [c]
  | fuel + 1, c =>
    c :: (match parent c with
          | none => []
          | some p => chainAux fuel p)

/-- The full parent chain of `c`, starting at `c` and ending at the root. -/
def parentChain (c : CClass) : List CClass :=
  chainAux (classDepth c + 1) c

/-! ## Frames and the dispatch routines -/

/-- `enum _State` (`src/Except.h` lines 117-122). -/
inductive XState where
  | EMPTY
  | PENDING
  | CAUGHT
deriving DecidableEq, Repr

/-- `enum _Scope` (`src/Except.h` lines 108-115). -/
inductive XScope where
  | OUTSIDE
  | INTERNAL
  | TRY
  | CATCH
  | FINALLY
deriving DecidableEq, Repr

/-- Values carried in the `void * pData` member of an exception record:
either user data (modelled as a string, as in the tests) or, for
`ReturnEvent`, a pointer to a `JMP_BUF` (`returnBuf`) identified by a tag. -/
inductive CData where
  | str (s : String)
  | jmpBuf (id : Nat)
deriving DecidableEq, Repr

/-- `struct _Except` (`src/Except.h` lines 124-145), restricted to the data
members the dispatch routines read and write.  `throwBuf` / `finalBuf` are
jump destinations owned by the frame and are represented by the `Dest`
labels below; the `getMessage` / `getData` / `printTryTrace` members are
constant function pointers and carry no state; `ready` and `checkList`
belong to the macro control loop and the debug auditor, modelled separately.
`cls` is the `class` member (`NULL` from `calloc` until populated). -/
structure ExRec where
  state : XState
  cls : Option CClass
  pData : Option CData
  file : String
  line : Nat
  scope : XScope
  first : Bool
  tryFile : String
  tryLine : Nat
deriving DecidableEq, Repr

/-- The two `longjmp` destinations recorded inside a frame that
`ExceptThrow` can jump to (`throwBuf` starts `catch` evaluation,
`finalBuf` starts the `finally` block). -/
inductive Dest where
  | throwBuf
  | finalBuf
deriving DecidableEq, Repr

/-- The diagnostic line
`fprintf(stderr, "%s lost: file \"%s\", line %d.\n", ...)` printed for a
lost exception (`src/Except.c` lines 830-831 and 1016-1017). -/
def lostLine (name file : String) (line : Nat) : String :=
  name ++ " lost: file \"" ++ file ++ "\", line " ++ toString line ++ "."

/-- The first argument of `throw()` / `ExceptThrow`: either an exception
class (`notRethrown == 1`) or the current exception object `pC->pEx`
(`notRethrown == 0`, a rethrow). -/
inductive ThrowObj where
  | ofClass (c : CClass)
  | exObj
deriving DecidableEq, Repr

/-- The name `ExceptThrow` prints in the lost-exception diagnostic:
`((ClassRef)pExceptOrClass)->name`.  For a rethrown exception object the C
code would read indeterminate memory through the mismatched cast (this case
is not exercised by any claim); it is modelled as an unspecified marker. -/
def throwObjName : ThrowObj → String
  | .ofClass c => className c
  | .exObj => "?indeterminate?"

/-- Result of `ExceptThrow`: the updated frame stack, the lost-exception
diagnostic if one was printed (in which case the call returns normally),
and the `longjmp` destination taken, if any. -/
structure ThrowOut where
  stack : List ExRec
  lost : Option String
  jump : Option Dest
deriving DecidableEq, Repr

/-- `ExceptThrow` (`src/Except.c` lines 816-862).  The stack is the
context's exception stack with the top (`pC->pEx`) at the head; an empty
list covers both `pC == NULL`, `pC->exStack == NULL` and
`LifoCount(pC->exStack) == 0`.  When the first argument has
`notRethrown == 1` (a class) the descriptor members are written into
the top frame (the three method hooks are constant and not modelled);
for a rethrow (`notRethrown == 0`) nothing is copied.  In both cases the
state becomes `PENDING` and the jump is selected by the top frame's scope;
scopes other than `TRY` / `CATCH` / `FINALLY` fall through the `switch`
and return. -/
def ExceptThrow (stack : List ExRec) (obj : ThrowObj) (pData : Option CData)
    (file : String) (line : Nat) : ThrowOut :=
  match stack with
  | [] => { stack := [], lost := some (lostLine (throwObjName obj) file line),
            jump := none }
  | pEx :: rest =>
    let pEx1 :=
      match obj with
      | .ofClass c =>
        { pEx with cls := some c, pData := pData, file := file, line := line }
      | .exObj => pEx
    let pEx2 := { pEx1 with state := XState.PENDING }
    { stack := pEx2 :: rest,
      lost := none,
      jump :=
        match pEx2.scope with
        | .TRY => some Dest.throwBuf
        | .CATCH => some Dest.finalBuf
        | .FINALLY => some Dest.finalBuf
        | _ => none }

/-- The condition `ExceptIsDerived(pC->pEx->class, class)` evaluated on an
optional class member.  `ExceptCatch` only reaches this test with
`state == PENDING`, in which case the member has been populated; a `NULL`
class (which the C code would dereference) is mapped to a non-match. -/
def matchesClass (ec : Option CClass) (cls : CClass) : Bool :=
  match ec with
  | some ec => ExceptIsDerived ec cls
  | none => false

/-- `ExceptCatch` (`src/Except.c` lines 908-921): acts on the top frame
`pC->pEx`; returns the `state == CAUGHT` comparison and the (possibly
updated) frame. -/
def ExceptCatch (pEx : ExRec) (cls : CClass) : Bool × ExRec :=
  let pEx1 :=
    if pEx.state = XState.PENDING ∧ matchesClass pEx.cls cls = true then
      { pEx with state := XState.CAUGHT }
    else pEx
  (decide (pEx1.state = XState.CAUGHT), pEx1)

/-- The action `ExceptFinally` ends in, besides updating the stack. -/
inductive FinAction where
  /-- falls through and returns 0 -/
  | ret
  /-- `AssertAction(pC, DO_ABORT, ex.pData, ex.file, ex.line)` -/
  | assertAct (expr : Option CData) (file : String) (line : Nat)
  /-- `raise(ex.class->signalNumber)` after destroying the context -/
  | raiseSig (n : Nat)
  /-- `LONGJMP(*(JMP_BUF *)ex.pData, 1)`, the `returnBuf` destination -/
  | longjmpReturnBuf (d : Option CData)
  /-- lost-exception diagnostic printed at the outermost level -/
  | printLost (msg : String)
  /-- inner-level propagation jumped into the new top frame -/
  | jump (dest : Dest)
deriving DecidableEq, Repr

/-- Result of `ExceptFinally`: the frame stack after the pop (and possible
propagation), whether the context and its stack were destroyed, and the
final action. -/
structure FinOut where
  stack : List ExRec
  ctxDestroyed : Bool
  action : FinAction
deriving DecidableEq, Repr

/-- `ExceptFinally` (`src/Except.c` lines 958-1049).

Parameters: `sigNum` is the mutable `signalNumber` member of the class
records (0 from static initialization until `ExceptThrowSignal` stamps it);
`restored` is the result of `ExceptRestoreHandlers(pC)`, which depends on
the threading configuration (always 1 in the single-threaded build, the
`--numThreadsTry == 0` test in the shared-handler build).

The routine pops the top frame.  At the outermost level (stack now empty)
the default action is selected by the if-chain on the popped record, and
the context and its stack are destroyed on every path (in the `raise` and
`ReturnEvent` branches before the terminal action, otherwise by the common
code after the chain; the assertion branch is modelled with the default
`DO_ABORT == 0` configuration, under which `AssertAction` returns).  At an
inner level a pending exception is either the `ReturnEvent` of the first
`try` of a routine (jump to `returnBuf`) or re-thrown into the new top
frame by calling `ExceptThrow` with the popped descriptor.  A `NULL` class
(which the C code would dereference in the derivation test, the `raise`
argument or the re-throw) is mapped to a non-match / signal 0 /
`ReturnEvent`; no claim exercises a `PENDING` frame with a `NULL` class. -/
def ExceptFinally (sigNum : CClass → Nat) (restored : Bool)
    (stack : List ExRec) : FinOut :=
  match stack with
  | [] =>
    -- `LifoPop` on an empty stack: never invoked by the macros.
    { stack := [], ctxDestroyed := false, action := FinAction.ret }
  | ex :: rest =>
    if rest.isEmpty then
      -- outermost level - default action
      if ex.state = XState.PENDING then
        if ex.cls = some FailedAssertion then
          { stack := rest, ctxDestroyed := true,
            action := FinAction.assertAct ex.pData ex.file ex.line }
        else if matchesClass ex.cls RuntimeException = true ∧ restored = true then
          { stack := rest, ctxDestroyed := true,
            action := FinAction.raiseSig (ex.cls.elim 0 sigNum) }
        else if ex.cls = some ReturnEvent then
          { stack := rest, ctxDestroyed := true,
            action := FinAction.longjmpReturnBuf ex.pData }
        else
          { stack := rest, ctxDestroyed := true,
            action := FinAction.printLost
              (lostLine (ex.cls.elim "?" className) ex.file ex.line) }
      else
        { stack := rest, ctxDestroyed := true, action := FinAction.ret }
    else
      -- inner level - propagate
      if ex.state = XState.PENDING then
        if ex.cls = some ReturnEvent ∧ ex.first = true then
          { stack := rest, ctxDestroyed := false,
            action := FinAction.longjmpReturnBuf ex.pData }
        else
          let t := ExceptThrow rest (ThrowObj.ofClass (ex.cls.getD ReturnEvent))
                     ex.pData ex.file ex.line
          { stack := t.stack, ctxDestroyed := false,
            action :=
              match t.jump with
              | some d => FinAction.jump d
              | none => FinAction.ret }
      else
        { stack := rest, ctxDestroyed := false, action := FinAction.ret }

/-- The statement `ExceptGetContext(pC)->pEx->scope = FINALLY;` executed by
the `finally` macro (`src/Except.h` line 240) just before the
`ExceptFinally` loop: sets the scope of the top frame. -/
def setTopScope (s : XScope) : List ExRec → List ExRec
  | [] => []
  | f :: r => { f with scope := s } :: r

/-! ## Signal bridge -/

/-- The five trap signals the bridge installs handlers for
(`SIGABRT`, `SIGFPE`, `SIGILL`, `SIGSEGV` and, where available, `SIGBUS`). -/
inductive Sig where
  | sigABRT
  | sigFPE
  | sigILL
  | sigSEGV
  | sigBUS
deriving DecidableEq, Repr

/-- The `switch (number)` of `ExceptThrowSignal` (`src/Except.c` lines
546-555): the class matching each trap signal. -/
def sigClass : Sig → CClass
  | .sigABRT => AbnormalTermination
  | .sigFPE => ArithmeticException
  | .sigILL => IllegalInstruction
  | .sigSEGV => SegmentationFault
  | .sigBUS => BusError

/-- Result of `ExceptThrowSignal`: which signal had the handler
re-installed (`signal(number, ExceptThrowSignal)`), the updated
`signalNumber` members of the class records, and the result of the
`ExceptThrow` call. -/
structure SigOut where
  reinstalled : Sig
  sigNum : CClass → Nat
  thrown : ThrowOut

/-- `ExceptThrowSignal` (`src/Except.c` lines 539-562).  `osNum` gives the
platform's numeric value of each signal (the `int number` the handler
receives); `sigNum` is the current `signalNumber` state of the class
records.  The handler selects the matching class, re-installs itself for
the delivered signal, stamps the signal number into the class, and invokes
`ExceptThrow(NULL, class, NULL, "?", 0)`. -/
def ExceptThrowSignal (osNum : Sig → Nat) (sigNum : CClass → Nat)
    (stack : List ExRec) (number : Sig) : SigOut :=
  let cls := sigClass number
  { reinstalled := number,
    sigNum := fun c => if c = cls then osNum number else sigNum c,
    thrown := ExceptThrow stack (ThrowObj.ofClass cls) none "?" 0 }

/-! ## Debug auditor -/

/-- `struct _Check` (`src/Except.c` lines 1170-1174): one recorded `catch`
condition, class and source line. -/
structure Chk where
  cls : CClass
  line : Nat
deriving DecidableEq, Repr

/-- The two diagnostics `ExceptCheck` can print (`src/Except.c` lines
1187-1197). -/
inductive ChkWarning where
  | duplicate (name : String) (file : String) (line : Nat) (prevLine : Nat)
  | superfluous (name : String) (file : String) (line : Nat)
      (prevName : String) (prevLine : Nat)
deriving DecidableEq, Repr

/-- The `while (pCheck != NULL)` walk of `ExceptCheck` (`src/Except.c`
lines 1182-1202) over the recorded conditions, in list order: the first
entry whose class equals the new class yields the duplicate warning, the
first entry the new class is derived from yields the superfluous warning;
both `break`. -/
def checkWalk (cls : CClass) (file : String) (line : Nat) :
    List Chk → Option ChkWarning
  | [] => none
  | pCheck :: tl =>
    if cls = pCheck.cls then
      some (ChkWarning.duplicate (className cls) file line pCheck.line)
    else if ExceptIsDerived cls pCheck.cls = true then
      some (ChkWarning.superfluous (className cls) file line
        (className pCheck.cls) pCheck.line)
    else checkWalk cls file line tl

/-- `ExceptCheck` (`src/Except.c` lines 1163-1213), on the
`!*pChecked` path: walks the recorded conditions; when no test fired
(`pCheck == NULL` after the loop) the new `(class, line)` pair is appended
at the tail; when a warning fired the pair is not appended. -/
def ExceptCheck (checkList : List Chk) (cls : CClass) (file : String)
    (line : Nat) : List Chk × Option ChkWarning :=
  match checkWalk cls file line checkList with
  | some w => (checkList, some w)
  | none => (checkList ++ [{ cls := cls, line := line }], none)

/-- The diagnostic
`"Warning: No catch clause(s): file \"%s\", line %d.\n"`
(`src/Except.c` lines 1125-1127). -/
def noCatchLine (file : String) (line : Nat) : String :=
  "Warning: No catch clause(s): file \"" ++ file ++ "\", line "
    ++ toString line ++ "."

/-- `ExceptCheckBegin` (`src/Except.c` lines 1107-1137).  State is the
`checkList` member (`none` = `NULL`) and the macro's static `checked`
flag; the result is the new list, the new flag (also the return value)
and the warning printed, if any.  The first call creates the empty list;
the second call warns when no `catch` condition was recorded and destroys
the list; later calls do nothing. -/
def ExceptCheckBegin (checkList : Option (List Chk)) (checked : Bool)
    (file : String) (line : Nat) :
    Option (List Chk) × Bool × Option String :=
  if checkList = none ∧ checked = false then
    (some [], checked, none)
  else if checked = false then
    ((none : Option (List Chk)), true,
      if (checkList.getD []).length = 0 then some (noCatchLine file line)
      else none)
  else
    (checkList, checked, none)

/-- Invariant of the auditor's condition list: no recorded class is derived
from (or equal to, since the derivation walk is reflexive) the class of an
earlier entry.  Lists built by `ExceptCheck` from the empty list satisfy
this, because a class that is equal to or derived from an earlier entry is
never appended. -/
def ChkInv (l : List Chk) : Prop :=
  List.Pairwise (fun a b => ExceptIsDerived b.cls a.cls = false) l

/-! ## The scope/state machine of the macros

An event-labelled transition system over stacks of frames, restricted to
the members the `try` / `catch` / `finally` / `throw` / `return` macros
(`src/Except.h` lines 202-259) and the dispatch routines drive.  Each event
is one engine primitive together with the macro statements glued to it; a
configuration is the frame stack between two primitives. -/

/-- A frame of the scope/state machine: the `state`, `scope`, `class` and
`first` members of `struct _Except`. -/
structure MFrame where
  state : XState
  scope : XScope
  cls : Option CClass
  first : Bool
deriving DecidableEq, Repr

/-- Events of the scope/state machine, one per engine primitive. -/
inductive Evt where
  /-- `ExceptTry`: push a `calloc`-cleared frame -/
  | tryBegin (first : Bool)
  /-- `pC->pEx->scope = TRY;` at the start of the execution pass of the
  `try` macro -/
  | enterTry
  /-- `ExceptThrow` with a class argument from user code -/
  | throwClass (c : CClass)
  /-- `ExceptThrow` with the current exception object (rethrow) -/
  | rethrowStep
  /-- `ExceptCatch` returning 1 together with `pC->pEx->scope = CATCH;`
  of the `catch` macro -/
  | catchEnter (c : CClass)
  /-- `ExceptGetContext(pC)->pEx->scope = FINALLY;` of the `finally`
  macro -/
  | finallyEnter
  /-- `ExceptReturn` invoked by the `return` macro -/
  | returnStep
  /-- `ExceptFinally` popping the top frame -/
  | finallyResolve
deriving DecidableEq, Repr

/-- Scopes in which user code executes, hence in which a `throw` can be
issued (the scopes handled by the `switch` in `ExceptThrow`). -/
def userScope (s : XScope) : Prop :=
  s = XScope.TRY ∨ s = XScope.CATCH ∨ s = XScope.FINALLY

/-- One step of the scope/state machine.  Sources:
`tryBegin` = `ExceptTry` (`src/Except.c` lines 760-787: the pushed frame is
`calloc`-cleared, so `state = EMPTY`, `scope = INTERNAL`, `class = NULL`);
`enterTry` = `src/Except.h` line 213;
`throwClass` / `rethrowStep` = `ExceptThrow` lines 836-861 (populate for a
class, skip for a rethrow, then `state = PENDING`);
`catchEnter` = `ExceptCatch` lines 917-918 returning 1 fused with the
`scope = CATCH` assignment of the `catch` macro (`src/Except.h` line 225);
`finallyEnter` = `src/Except.h` line 240;
`returnStep` = `ExceptReturn` lines 1078-1079;
the four `finallyResolve` cases = `ExceptFinally` lines 967-1046 restricted
to the machine's members. -/
inductive MStep : List MFrame → Evt → List MFrame → Prop where
  | tryBegin (first : Bool) (cfg : List MFrame) :
      MStep cfg (Evt.tryBegin first)
        ({ state := XState.EMPTY, scope := XScope.INTERNAL, cls := none,
           first := first } :: cfg)
  | enterTry (f : MFrame) (cfg : List MFrame)
      (h : f.scope = XScope.INTERNAL) :
      MStep (f :: cfg) Evt.enterTry ({ f with scope := XScope.TRY } :: cfg)
  | throwClass (c : CClass) (f : MFrame) (cfg : List MFrame)
      (h : userScope f.scope) :
      MStep (f :: cfg) (Evt.throwClass c)
        ({ f with cls := some c, state := XState.PENDING } :: cfg)
  | rethrowStep (f : MFrame) (cfg : List MFrame)
      (h : f.scope = XScope.CATCH ∨ f.scope = XScope.FINALLY) :
      MStep (f :: cfg) Evt.rethrowStep
        ({ f with state := XState.PENDING } :: cfg)
  | catchEnter (c ec : CClass) (f : MFrame) (cfg : List MFrame)
      (hs : f.scope = XScope.TRY) (hp : f.state = XState.PENDING)
      (hc : f.cls = some ec) (hd : ExceptIsDerived ec c = true) :
      MStep (f :: cfg) (Evt.catchEnter c)
        ({ f with state := XState.CAUGHT, scope := XScope.CATCH } :: cfg)
  | finallyEnter (f : MFrame) (cfg : List MFrame) (h : userScope f.scope) :
      MStep (f :: cfg) Evt.finallyEnter
        ({ f with scope := XScope.FINALLY } :: cfg)
  | returnStep (f : MFrame) (cfg : List MFrame)
      (h : f.scope ≠ XScope.OUTSIDE) :
      MStep (f :: cfg) Evt.returnStep
        ({ f with cls := some ReturnEvent, state := XState.PENDING } :: cfg)
  | popOutermost (f : MFrame) (h : f.scope = XScope.FINALLY) :
      MStep [f] Evt.finallyResolve []
  | popNotPending (f g : MFrame) (cfg : List MFrame)
      (hs : f.scope = XScope.FINALLY) (hp : f.state ≠ XState.PENDING) :
      MStep (f :: g :: cfg) Evt.finallyResolve (g :: cfg)
  | popReturnFirst (f g : MFrame) (cfg : List MFrame)
      (hs : f.scope = XScope.FINALLY) (hp : f.state = XState.PENDING)
      (hr : f.cls = some ReturnEvent) (hf : f.first = true) :
      MStep (f :: g :: cfg) Evt.finallyResolve (g :: cfg)
  | popPropagate (f g : MFrame) (cfg : List MFrame) (c : CClass)
      (hs : f.scope = XScope.FINALLY) (hp : f.state = XState.PENDING)
      (hc : f.cls = some c)
      (hnr : ¬(f.cls = some ReturnEvent ∧ f.first = true)) :
      MStep (f :: g :: cfg) Evt.finallyResolve
        ({ g with cls := some c, state := XState.PENDING } :: cfg)

/-- Configurations reachable from the initial empty stack. -/
inductive MReach : List MFrame → Prop where
  | nil : MReach []
  | step (cfg : List MFrame) (e : Evt) (cfg2 : List MFrame) :
      MReach cfg → MStep cfg e cfg2 → MReach cfg2

/-- Number of frames in state `CAUGHT`. -/
def caughtCount (cfg : List MFrame) : Nat :=
  cfg.countP (fun f => f.state == XState.CAUGHT)

/-! ## Concrete inputs used by witnesses and counterexamples -/

/-- A frame already in state `CAUGHT` holding a `RuntimeException`, as left
by a matching `catch` clause. -/
def c2Frame : ExRec :=
  { state := XState.CAUGHT, cls := some RuntimeException, pData := none,
    file := "f.c", line := 10, scope := XScope.CATCH, first := true,
    tryFile := "f.c", tryLine := 5 }

/-- A frame with a pending `Level2Exception` during `catch` evaluation. -/
def c2PendFrame : ExRec :=
  { state := XState.PENDING, cls := some Level2Exception, pData := none,
    file := "t.c", line := 30, scope := XScope.TRY, first := true,
    tryFile := "t.c", tryLine := 28 }

/-- A frame already in state `CAUGHT` holding an `Exception`. -/
def c10Frame : ExRec :=
  { state := XState.CAUGHT, cls := some Exception, pData := none,
    file := "f.c", line := 20, scope := XScope.CATCH, first := true,
    tryFile := "f.c", tryLine := 15 }

/-- The inner frame of the rethrow test of `src/Test.c` lines 570-582:
inside `catch (Exception, e)` after `throw (Exception, "Hello")` was
caught. -/
def c5Inner : ExRec :=
  { state := XState.CAUGHT, cls := some Exception,
    pData := some (CData.str "Hello"), file := "Test.c", line := 574,
    scope := XScope.CATCH, first := false, tryFile := "Test.c",
    tryLine := 571 }

/-- The outer frame of the rethrow test: its `try` block is executing. -/
def c5Outer : ExRec :=
  { state := XState.EMPTY, cls := none, pData := none, file := "",
    line := 0, scope := XScope.TRY, first := true, tryFile := "Test.c",
    tryLine := 570 }

/-- The stack after `throw (e, "there!")` inside the inner `catch`, then
the `finally` macro setting the top scope, as in `src/Test.c` line 577. -/
def c5AfterThrow : List ExRec :=
  setTopScope XScope.FINALLY
    (ExceptThrow [c5Inner, c5Outer] ThrowObj.exObj
      (some (CData.str "there!")) "Test.c" 577).stack

/-- The stack delivered to the outer frame after the inner `finally`
resolves. -/
def c5Delivered : List ExRec :=
  (ExceptFinally (fun _ => 0) true c5AfterThrow).stack

/-- An inner frame with an uncaught pending `Level1Exception`, about to be
popped by its `finally`. -/
def c3Inner : ExRec :=
  { state := XState.PENDING, cls := some Level1Exception,
    pData := some (CData.str "data"), file := "Test.c", line := 557,
    scope := XScope.FINALLY, first := false, tryFile := "Test.c",
    tryLine := 554 }

/-- The enclosing frame for the propagation witness. -/
def c3Outer : ExRec :=
  { state := XState.EMPTY, cls := none, pData := none, file := "",
    line := 0, scope := XScope.TRY, first := true, tryFile := "Test.c",
    tryLine := 550 }

/-- The single outermost frame with an uncaught pending
`SegmentationFault`, as after an uncaught trap. -/
def c4Frame : ExRec :=
  { state := XState.PENDING, cls := some SegmentationFault, pData := none,
    file := "?", line := 0, scope := XScope.FINALLY, first := true,
    tryFile := "Test.c", tryLine := 317 }

/-- A reachable configuration whose top frame is in scope `TRY` with a
pending exception: the machine state while the `catch` guards of
`src/Test.c` lines 47-57 are evaluated after `throw (Exception, NULL)`. -/
def c6Cfg : List MFrame :=
  [{ state := XState.PENDING, scope := XScope.TRY, cls := some Exception,
     first := true }]

/-- The audit list of `src/Test.c` lines 699-704 after
`catch (SegmentationFault, e)` at line 700 and `catch (FailedAssertion, e)`
at line 701 were recorded. -/
def c9List : List Chk :=
  [{ cls := SegmentationFault, line := 700 },
   { cls := FailedAssertion, line := 701 }]

/-- A machine frame freshly pushed by `ExceptTry`. -/
def c6NewFrame : MFrame :=
  { state := XState.EMPTY, scope := XScope.INTERNAL, cls := none,
    first := true }

/-- The machine frame at the start of the execution pass of a `try`. -/
def c6TryFrame : MFrame :=
  { state := XState.EMPTY, scope := XScope.TRY, cls := none, first := true }

/-- A reachable single-frame configuration executing its `try` block. -/
def c6TryCfg : List MFrame := [c6TryFrame]

/-- A machine frame in `finally` with an uncaught pending `Exception`. -/
def c6FinFrame : MFrame :=
  { state := XState.PENDING, scope := XScope.FINALLY,
    cls := some Exception, first := false }

/-! ## Helper lemmas -/

theorem parent_none_depth : ∀ c : CClass, parent c = none → classDepth c = 0 := by
  decide

theorem parent_some_depth : ∀ c p : CClass, parent c = some p →
    classDepth c = classDepth p + 1 := by
  decide

/-- Any fuel of at least `classDepth c` makes the parent walk reach its
fixed point: the `while` loop of `ExceptIsDerived` terminates because every
parent chain ends in a class whose parent link is empty. -/
theorem isDerivedAux_stable :
    ∀ (fuel : Nat) (c base : CClass), classDepth c ≤ fuel →
      isDerivedAux fuel c base = isDerivedAux (classDepth c) c base := by
  intro fuel
  induction fuel with
  | zero =>
    intro c base h
    have h0 : classDepth c = 0 := Nat.le_zero.mp h
    rw [h0]
  | succ n ih =>
    intro c base h
    cases hp : parent c with
    | none =>
      have h0 : classDepth c = 0 := parent_none_depth c hp
      rw [h0]
      simp [isDerivedAux, hp]
    | some p =>
      have hd : classDepth c = classDepth p + 1 := parent_some_depth c p hp
      by_cases hb : c = base
      · rw [hd]; simp [isDerivedAux, hp, hb]
      · have hbne : (c == base) = false := by simp [hb]
        have l1 : isDerivedAux (n + 1) c base = isDerivedAux n p base := by
          simp [isDerivedAux, hp, hbne]
        have l2 : isDerivedAux (classDepth c) c base
            = isDerivedAux (classDepth p) p base := by
          rw [hd]; simp [isDerivedAux, hp, hbne]
        have hpn : classDepth p ≤ n := by omega
        rw [l1, l2, ih p base hpn]

theorem isDerived_refl : ∀ c : CClass, ExceptIsDerived c c = true := by
  decide

/-! ## Claim theorems -/

/-- C1: For all exception classes `C` and `P` of the declared class tree,
`ExceptIsDerived C C` returns true, and `ExceptIsDerived C P` returns true
iff `P` occurs on the chain of parent links starting at `C` (`C` itself
included); any fuel beyond the chain depth leaves the walk's answer
unchanged, i.e. the walk terminates because the root's parent link is
empty. -/
theorem C1_isDerived_reflexive_and_chain :
    (∀ c : CClass, ExceptIsDerived c c = true)
    ∧ (∀ c p : CClass, ExceptIsDerived c p = true ↔ p ∈ parentChain c)
    ∧ (∀ (c p : CClass) (fuel : Nat), classDepth c ≤ fuel →
        isDerivedAux fuel c p = ExceptIsDerived c p) := by
  refine ⟨by decide, by decide, ?_⟩
  intro c p fuel h
  have h1 := isDerivedAux_stable fuel c p h
  have h2 := isDerivedAux_stable (classDepth c + 1) c p (Nat.le_succ _)
  unfold ExceptIsDerived
  rw [h1, h2]

/-- Witness for C1, instantiated at `SegmentationFault` with fuel 7. -/
theorem C1_witness :
    ExceptIsDerived SegmentationFault SegmentationFault = true
    ∧ (ExceptIsDerived SegmentationFault RuntimeException = true
        ↔ RuntimeException ∈ parentChain SegmentationFault)
    ∧ isDerivedAux 7 SegmentationFault RuntimeException
        = ExceptIsDerived SegmentationFault RuntimeException :=
  ⟨C1_isDerived_reflexive_and_chain.1 SegmentationFault,
   C1_isDerived_reflexive_and_chain.2.1 SegmentationFault RuntimeException,
   C1_isDerived_reflexive_and_chain.2.2 SegmentationFault RuntimeException 7
     (by decide)⟩

/-- C2 counterexample: with the top frame's state `CAUGHT` (which is in
the claimed precondition `{PENDING, CAUGHT}`) and a class the caught
exception's class is not derived from, `ExceptCatch` returns true and
leaves the frame unchanged, where the claim demands that false be
returned. -/
theorem C2_counterexample :
    c2Frame.state = XState.CAUGHT
    ∧ ExceptIsDerived RuntimeException OutOfMemoryError = false
    ∧ ExceptCatch c2Frame OutOfMemoryError = (true, c2Frame)
    ∧ (ExceptCatch c2Frame OutOfMemoryError).1 ≠ false := by
  refine ⟨rfl, by decide, by decide, by decide⟩

/-- C2 (amended): whenever `ExceptCatch` is called with the top frame's
state in `{PENDING, CAUGHT}`: if the state is `PENDING` and the occurred
class is derived from the clause's class, the state transitions to
`CAUGHT` and true is returned; if the state is `PENDING` without such
derivation, false is returned and the frame is unchanged; if the state is
already `CAUGHT`, true is returned and the frame is unchanged. -/
theorem C2_catch_match_cases (pEx : ExRec) (cls : CClass) :
    (pEx.state = XState.PENDING → matchesClass pEx.cls cls = true →
      ExceptCatch pEx cls = (true, { pEx with state := XState.CAUGHT }))
    ∧ (pEx.state = XState.PENDING → matchesClass pEx.cls cls = false →
      ExceptCatch pEx cls = (false, pEx))
    ∧ (pEx.state = XState.CAUGHT → ExceptCatch pEx cls = (true, pEx)) := by
  refine ⟨?_, ?_, ?_⟩
  · intro hp hm
    simp [ExceptCatch, hp, hm]
  · intro hp hm
    simp [ExceptCatch, hp, hm]
  · intro hc
    simp [ExceptCatch, hc]

/-- Witness for C2 (amended): the three cases at concrete frames. -/
theorem C2_witness :
    ExceptCatch c2PendFrame Throwable
      = (true, { c2PendFrame with state := XState.CAUGHT })
    ∧ ExceptCatch c2PendFrame ReturnEvent = (false, c2PendFrame)
    ∧ ExceptCatch c2Frame SegmentationFault = (true, c2Frame) :=
  ⟨(C2_catch_match_cases c2PendFrame Throwable).1 rfl (by decide),
   (C2_catch_match_cases c2PendFrame ReturnEvent).2.1 rfl (by decide),
   (C2_catch_match_cases c2Frame SegmentationFault).2.2 rfl⟩

/-- C10: if the top frame's state is already `CAUGHT`, `ExceptCatch`
returns true for every class argument — including classes under which the
caught exception's class is not derived — and leaves the frame's state and
exception descriptor unchanged. -/
theorem C10_caught_returns_true_unchanged (pEx : ExRec) (cls : CClass)
    (h : pEx.state = XState.CAUGHT) : ExceptCatch pEx cls = (true, pEx) := by
  simp [ExceptCatch, h]

/-- Witness for C10: a frame holding a caught `Exception` queried with
`OutOfMemoryError`, from which `Exception` is not derived. -/
theorem C10_witness :
    ExceptCatch c10Frame OutOfMemoryError = (true, c10Frame)
    ∧ ExceptIsDerived Exception OutOfMemoryError = false :=
  ⟨C10_caught_returns_true_unchanged c10Frame OutOfMemoryError rfl,
   by decide⟩

/-- C7: a `throw` when the current flow has no context or an empty frame
stack prints the single diagnostic line `"<class> lost: file f, line l."`,
takes no jump (the call returns and execution continues), and leaves the
frame stack unchanged. -/
theorem C7_throw_without_frame_lost (c : CClass) (d : Option CData)
    (f : String) (l : Nat) :
    ExceptThrow [] (ThrowObj.ofClass c) d f l =
      { stack := [],
        lost := some (className c ++ " lost: file \"" ++ f ++ "\", line "
          ++ toString l ++ "."),
        jump := none } := rfl

/-- C3: when `ExceptFinally` pops a frame whose state is `PENDING`, the
remaining stack is non-empty and the pending exception is not a
`ReturnEvent` with the `first` flag set, the exception is re-thrown into
the new top frame carrying the original class, data, file and line
unchanged (and the context is not destroyed); consequently an outer
`catch` whose class covers the original class matches, observing the
original class/file/line of the first throw. -/
theorem C3_propagation_preserves_descriptor
    (sigNum : CClass → Nat) (restored : Bool) (f g : ExRec)
    (gs : List ExRec) (c : CClass)
    (hp : f.state = XState.PENDING) (hc : f.cls = some c)
    (hnr : ¬(f.cls = some ReturnEvent ∧ f.first = true)) :
    (ExceptFinally sigNum restored (f :: g :: gs)).stack =
      { g with cls := some c, pData := f.pData, file := f.file,
               line := f.line, state := XState.PENDING } :: gs
    ∧ (ExceptFinally sigNum restored (f :: g :: gs)).ctxDestroyed = false
    ∧ ∀ ccls : CClass, ExceptIsDerived c ccls = true →
        (ExceptCatch
          { g with cls := some c, pData := f.pData, file := f.file,
                   line := f.line, state := XState.PENDING }
          ccls).1 = true := by
  have hnr2 : ¬(c = ReturnEvent ∧ f.first = true) := by
    rw [hc] at hnr
    simpa using hnr
  refine ⟨?_, ?_, ?_⟩
  · simp [ExceptFinally, ExceptThrow, hp, hc, hnr2]
  · simp [ExceptFinally, ExceptThrow, hp, hc, hnr2]
  · intro ccls hder
    simp [ExceptCatch, matchesClass, hder]

/-- Witness for C3: a pending uncaught `Level1Exception` propagated into
an enclosing frame, then matched there by `catch (Exception, e)`. -/
theorem C3_witness :
    (ExceptFinally (fun _ => 0) true [c3Inner, c3Outer]).stack =
      [{ c3Outer with cls := some Level1Exception,
                      pData := c3Inner.pData, file := c3Inner.file,
                      line := c3Inner.line, state := XState.PENDING }]
    ∧ (ExceptFinally (fun _ => 0) true [c3Inner, c3Outer]).ctxDestroyed
        = false
    ∧ (ExceptCatch
        { c3Outer with cls := some Level1Exception,
                       pData := c3Inner.pData, file := c3Inner.file,
                       line := c3Inner.line, state := XState.PENDING }
        Exception).1 = true := by
  have h := C3_propagation_preserves_descriptor (fun _ => 0) true c3Inner
    c3Outer [] Level1Exception rfl rfl (by decide)
  exact ⟨h.1, h.2.1, h.2.2 Exception (by decide)⟩

/-- C4: when `ExceptFinally` pops the last frame and its state is
`PENDING`, exactly one default action runs, selected by the if-chain on the
exception class — `FailedAssertion` invokes the assertion handler with the
exception data as the failed-expression text; a class derived from
`RuntimeException` when the handlers were just restored re-raises the
class's signal number; `ReturnEvent` jumps to the destination carried in
the exception data; any other class prints the one-line lost-exception
diagnostic — and in this outermost branch the context and its frame stack
are always destroyed (for any popped frame, whatever its state). -/
theorem C4_outermost_default_actions (sigNum : CClass → Nat)
    (restored : Bool) (ex : ExRec) (c : CClass)
    (hp : ex.state = XState.PENDING) (hc : ex.cls = some c) :
    ExceptFinally sigNum restored [ex] =
      (if c = FailedAssertion then
        { stack := [], ctxDestroyed := true,
          action := FinAction.assertAct ex.pData ex.file ex.line }
      else if ExceptIsDerived c RuntimeException = true ∧ restored = true then
        { stack := [], ctxDestroyed := true,
          action := FinAction.raiseSig (sigNum c) }
      else if c = ReturnEvent then
        { stack := [], ctxDestroyed := true,
          action := FinAction.longjmpReturnBuf ex.pData }
      else
        { stack := [], ctxDestroyed := true,
          action := FinAction.printLost
            (lostLine (className c) ex.file ex.line) })
    ∧ ∀ ex2 : ExRec,
        (ExceptFinally sigNum restored [ex2]).ctxDestroyed = true := by
  constructor
  · simp [ExceptFinally, hp, hc, matchesClass]
  · intro ex2
    by_cases h1 : ex2.state = XState.PENDING
    · by_cases h2 : ex2.cls = some FailedAssertion
      · simp [ExceptFinally, h1, h2]
      · by_cases h3 : matchesClass ex2.cls RuntimeException = true
            ∧ restored = true
        · simp [ExceptFinally, h1, h2, h3]
        · by_cases h4 : ex2.cls = some ReturnEvent
          · have hm : matchesClass (some ReturnEvent) RuntimeException
                = false := by decide
            simp [ExceptFinally, h1, h2, h3, h4, hm]
          · simp [ExceptFinally, h1, h2, h3, h4]
    · simp [ExceptFinally, h1]

/-- Witness for C4: the uncaught pending `SegmentationFault` re-raises the
stamped signal number after destroying the context. -/
theorem C4_witness :
    ExceptFinally (fun cl => if cl = SegmentationFault then 11 else 0) true
        [c4Frame]
      = { stack := [], ctxDestroyed := true,
          action := FinAction.raiseSig 11 }
    ∧ (ExceptFinally (fun cl => if cl = SegmentationFault then 11 else 0)
        true [c4Frame]).ctxDestroyed = true := by
  have h := C4_outermost_default_actions
    (fun cl => if cl = SegmentationFault then 11 else 0) true c4Frame
    SegmentationFault rfl rfl
  exact ⟨by rw [h.1]; decide, h.2 c4Frame⟩

/-- C5 counterexample: in the rethrow scenario of `src/Test.c` lines
570-582 — `throw (Exception, "Hello")` caught, then `throw (e, "there!")`
inside the `catch` — the exception delivered to the enclosing frame still
carries the original data `"Hello"`; the new data `"there!"` is not
installed, where the claim demands that the associated data be replaced
by it.  (The repository's own test expects `"Hello"` to be printed.) -/
theorem C5_counterexample :
    c5Delivered = [{ c5Outer with cls := some Exception,
                                  pData := some (CData.str "Hello"),
                                  file := "Test.c", line := 574,
                                  state := XState.PENDING }]
    ∧ c5Delivered.head?.map ExRec.pData = some (some (CData.str "Hello"))
    ∧ (some (CData.str "Hello") : Option CData)
        ≠ some (CData.str "there!") := by
  refine ⟨by decide, by decide, by decide⟩

/-- C5 (amended): a `throw` inside a `catch` with the already-populated
exception object and new data skips the populate step entirely, so the
exception subsequently delivered to the enclosing handler keeps the class,
file and line of the original throw and also keeps the original associated
data; the new data argument is discarded. -/
theorem C5_rethrow_preserves_descriptor_and_data
    (sigNum : CClass → Nat) (restored : Bool) (pEx g : ExRec)
    (gs : List ExRec) (d2 : Option CData) (f2 : String) (l2 : Nat)
    (c : CClass) (hc : pEx.cls = some c)
    (hnr : ¬(pEx.cls = some ReturnEvent ∧ pEx.first = true)) :
    (ExceptThrow (pEx :: g :: gs) ThrowObj.exObj d2 f2 l2).stack
      = { pEx with state := XState.PENDING } :: g :: gs
    ∧ (ExceptFinally sigNum restored (setTopScope XScope.FINALLY
        (ExceptThrow (pEx :: g :: gs) ThrowObj.exObj d2 f2 l2).stack)).stack
      = { g with cls := some c, pData := pEx.pData, file := pEx.file,
                 line := pEx.line, state := XState.PENDING } :: gs := by
  have hnr2 : ¬(c = ReturnEvent ∧ pEx.first = true) := by
    rw [hc] at hnr
    simpa using hnr
  constructor
  · rfl
  · simp [ExceptThrow, setTopScope, ExceptFinally, hc, hnr2]

/-- Witness for C5 (amended): the concrete rethrow scenario of
`src/Test.c` lines 570-582. -/
theorem C5_witness :
    (ExceptThrow [c5Inner, c5Outer] ThrowObj.exObj
        (some (CData.str "there!")) "Test.c" 577).stack
      = [{ c5Inner with state := XState.PENDING }, c5Outer]
    ∧ (ExceptFinally (fun _ => 0) true (setTopScope XScope.FINALLY
        (ExceptThrow [c5Inner, c5Outer] ThrowObj.exObj
          (some (CData.str "there!")) "Test.c" 577).stack)).stack
      = [{ c5Outer with cls := some Exception, pData := c5Inner.pData,
                        file := c5Inner.file, line := c5Inner.line,
                        state := XState.PENDING }] :=
  C5_rethrow_preserves_descriptor_and_data (fun _ => 0) true c5Inner
    c5Outer [] (some (CData.str "there!")) "Test.c" 577 Exception rfl
    (by decide)

/-- C8: the signal translation handler, for each of the five trap signals,
re-installs itself as the handler for that signal, stores the delivered
signal number into the `signalNumber` member of the matching class
(`AbnormalTermination`, `ArithmeticException`, `IllegalInstruction`,
`SegmentationFault`, `BusError` respectively) leaving the other classes
untouched, and invokes `ExceptThrow` with that class, no data, file `"?"`
and line 0. -/
theorem C8_signal_translation (osNum : Sig → Nat) (sigNum : CClass → Nat)
    (stack : List ExRec) (s : Sig) :
    (ExceptThrowSignal osNum sigNum stack s).reinstalled = s
    ∧ (ExceptThrowSignal osNum sigNum stack s).sigNum (sigClass s) = osNum s
    ∧ (∀ c : CClass, c ≠ sigClass s →
        (ExceptThrowSignal osNum sigNum stack s).sigNum c = sigNum c)
    ∧ (ExceptThrowSignal osNum sigNum stack s).thrown
        = ExceptThrow stack (ThrowObj.ofClass (sigClass s)) none "?" 0
    ∧ sigClass Sig.sigABRT = AbnormalTermination
    ∧ sigClass Sig.sigFPE = ArithmeticException
    ∧ sigClass Sig.sigILL = IllegalInstruction
    ∧ sigClass Sig.sigSEGV = SegmentationFault
    ∧ sigClass Sig.sigBUS = BusError := by
  refine ⟨rfl, ?_, ?_, rfl, rfl, rfl, rfl, rfl, rfl⟩
  · simp [ExceptThrowSignal]
  · intro c hcne
    simp [ExceptThrowSignal, hcne]

/-- Witness for C8: a `SIGSEGV` (number 11) delivered on an empty stack. -/
theorem C8_witness :
    (ExceptThrowSignal (fun _ => 11) (fun _ => 0) [] Sig.sigSEGV).reinstalled
      = Sig.sigSEGV
    ∧ (ExceptThrowSignal (fun _ => 11) (fun _ => 0) []
        Sig.sigSEGV).sigNum (sigClass Sig.sigSEGV) = 11
    ∧ (ExceptThrowSignal (fun _ => 11) (fun _ => 0) [] Sig.sigSEGV).sigNum
        BusError = 0
    ∧ (ExceptThrowSignal (fun _ => 11) (fun _ => 0) [] Sig.sigSEGV).thrown
      = ExceptThrow [] (ThrowObj.ofClass (sigClass Sig.sigSEGV)) none
          "?" 0 := by
  have h := C8_signal_translation (fun _ => 11) (fun _ => 0) [] Sig.sigSEGV
  exact ⟨h.1, h.2.1, h.2.2.1 BusError (by decide), h.2.2.2.1⟩

/-- If the walk of `ExceptCheck` fires no warning, the new class is not
derived from (in particular not equal to) any recorded class. -/
theorem checkWalk_none_not_derived (cls : CClass) (file : String)
    (line : Nat) : ∀ l : List Chk, checkWalk cls file line l = none →
      ∀ e ∈ l, ExceptIsDerived cls e.cls = false := by
  intro l
  induction l with
  | nil =>
    intro _ e he
    cases he
  | cons x tl ih =>
    intro hw e he
    by_cases hx : cls = x.cls
    · rw [checkWalk, if_pos hx] at hw
      cases hw
    · by_cases hd : ExceptIsDerived cls x.cls = true
      · rw [checkWalk, if_neg hx, if_pos hd] at hw
        cases hw
      · have hdf : ExceptIsDerived cls x.cls = false :=
          Bool.eq_false_iff.mpr hd
        rw [checkWalk, if_neg hx] at hw
        rcases List.mem_cons.mp he with rfl | he2
        · exact hdf
        · have hw2 : checkWalk cls file line tl = none := by
            simpa [hdf] using hw
          exact ih hw2 e he2

/-- Converse: a new class not derived from any recorded class fires no
warning during the walk. -/
theorem checkWalk_none_of_fresh (cls : CClass) (file : String)
    (line : Nat) :
    ∀ l : List Chk, (∀ e ∈ l, cls ≠ e.cls ∧ ExceptIsDerived cls e.cls = false) →
      checkWalk cls file line l = none := by
  intro l
  induction l with
  | nil =>
    intro _
    rfl
  | cons x tl ih =>
    intro hfresh
    have hx := hfresh x (List.mem_cons_self x tl)
    rw [checkWalk, if_neg hx.1]
    simp only [hx.2, Bool.false_eq_true, if_false]
    exact ih (fun e he => hfresh e (List.mem_cons_of_mem x he))

/-- On an invariant-satisfying list, a class equal to a recorded one makes
the walk report the duplicate, naming the recorded clause's line. -/
theorem checkWalk_duplicate (cls : CClass) (file : String) (line : Nat) :
    ∀ l : List Chk, ChkInv l → ∀ pl : Nat, Chk.mk cls pl ∈ l →
      checkWalk cls file line l
        = some (ChkWarning.duplicate (className cls) file line pl) := by
  intro l
  induction l with
  | nil =>
    intro _ pl hmem
    cases hmem
  | cons x tl ih =>
    intro hinv pl hmem
    rcases List.mem_cons.mp hmem with he | he
    · have hx : cls = x.cls := by rw [← he]
      have hlx : x.line = pl := by rw [← he]
      rw [checkWalk, if_pos hx, hlx]
    · have hx : ExceptIsDerived cls x.cls = false :=
        (List.pairwise_cons.mp hinv).1 ⟨cls, pl⟩ he
      have hne : cls ≠ x.cls := by
        intro hcontra
        rw [hcontra] at hx
        exact absurd hx (by simp [isDerived_refl x.cls])
      rw [checkWalk, if_neg hne]
      simp only [hx, Bool.false_eq_true, if_false]
      exact ih (List.pairwise_cons.mp hinv).2 pl he

/-- If no recorded class equals the new one but the new one is derived
from some recorded class, the walk reports the first such clause as
superfluous. -/
theorem checkWalk_superfluous (cls : CClass) (file : String) (line : Nat) :
    ∀ l : List Chk, (∀ e ∈ l, e.cls ≠ cls) →
      (∃ e ∈ l, ExceptIsDerived cls e.cls = true) →
      ∃ e ∈ l, ExceptIsDerived cls e.cls = true
        ∧ checkWalk cls file line l
          = some (ChkWarning.superfluous (className cls) file line
              (className e.cls) e.line) := by
  intro l
  induction l with
  | nil =>
    intro _ hex
    rcases hex with ⟨e, he, _⟩
    cases he
  | cons x tl ih =>
    intro hne hex
    have hnx : cls ≠ x.cls := fun hcontra =>
      (hne x (List.mem_cons_self x tl)) hcontra.symm
    by_cases hd : ExceptIsDerived cls x.cls = true
    · refine ⟨x, List.mem_cons_self x tl, hd, ?_⟩
      rw [checkWalk, if_neg hnx, if_pos hd]
    · have hdf : ExceptIsDerived cls x.cls = false :=
        Bool.eq_false_iff.mpr hd
      have hex2 : ∃ e ∈ tl, ExceptIsDerived cls e.cls = true := by
        rcases hex with ⟨e, he, hde⟩
        rcases List.mem_cons.mp he with rfl | he2
        · exact absurd hde hd
        · exact ⟨e, he2, hde⟩
      rcases ih (fun e he => hne e (List.mem_cons_of_mem x he)) hex2 with
        ⟨e, he, hde, heq⟩
      refine ⟨e, List.mem_cons_of_mem x he, hde, ?_⟩
      rw [checkWalk, if_neg hnx]
      simp only [hdf, Bool.false_eq_true, if_false]
      exact heq

/-- C9: for each new `catch` clause audited by the debug checker on a list
built by the checker itself (no recorded class is derived from an earlier
one — an invariant `ExceptCheck` preserves): a class equal to an earlier
clause's class yields the duplicate warning naming both line numbers and
no append; otherwise a class derived from an earlier clause's class yields
a superfluous warning and no append; otherwise the `(class, line)` pair is
appended at the tail; and the completion call of a `try` whose list is
empty emits the no-catch warning naming the `try` location, while a
non-empty list emits none. -/
theorem C9_audit_duplicate_shadow_append (l : List Chk) (cls : CClass)
    (file : String) (line : Nat) :
    (ChkInv l → ∀ pl : Nat, Chk.mk cls pl ∈ l →
      ExceptCheck l cls file line
        = (l, some (ChkWarning.duplicate (className cls) file line pl)))
    ∧ ((∀ e ∈ l, e.cls ≠ cls) → (∃ e ∈ l, ExceptIsDerived cls e.cls = true) →
      ∃ e ∈ l, ExceptIsDerived cls e.cls = true
        ∧ ExceptCheck l cls file line
          = (l, some (ChkWarning.superfluous (className cls) file line
              (className e.cls) e.line)))
    ∧ ((∀ e ∈ l, cls ≠ e.cls ∧ ExceptIsDerived cls e.cls = false) →
      ExceptCheck l cls file line
        = (l ++ [{ cls := cls, line := line }], none))
    ∧ (ChkInv l → ChkInv (ExceptCheck l cls file line).1)
    ∧ (∀ f2 : String, ∀ l2 : Nat,
        ExceptCheckBegin (some []) false f2 l2
          = (none, true, some (noCatchLine f2 l2)))
    ∧ (∀ f2 : String, ∀ l2 : Nat, ∀ tl : List Chk, tl ≠ [] →
        ExceptCheckBegin (some tl) false f2 l2 = (none, true, none)) := by
  refine ⟨?_, ?_, ?_, ?_, ?_, ?_⟩
  · intro hinv pl hmem
    unfold ExceptCheck
    rw [checkWalk_duplicate cls file line l hinv pl hmem]
  · intro hne hex
    rcases checkWalk_superfluous cls file line l hne hex with
      ⟨e, he, hde, heq⟩
    refine ⟨e, he, hde, ?_⟩
    unfold ExceptCheck
    rw [heq]
  · intro hfresh
    unfold ExceptCheck
    rw [checkWalk_none_of_fresh cls file line l hfresh]
  · intro hinv
    unfold ExceptCheck
    cases hw : checkWalk cls file line l with
    | some w => exact hinv
    | none =>
      show ChkInv (l ++ [{ cls := cls, line := line }])
      have hall := checkWalk_none_not_derived cls file line l hw
      rw [ChkInv, List.pairwise_append]
      refine ⟨hinv, by simp, ?_⟩
      intro a ha b hb
      rw [List.mem_singleton.mp hb]
      exact hall a ha
  · intro f2 l2
    rfl
  · intro f2 l2 tl htl
    simp [ExceptCheckBegin, List.length_eq_zero, htl]

/-- Witness for C9: the audit of `src/Test.c` lines 697-705 — after
`catch (SegmentationFault, e)` and `catch (FailedAssertion, e)` were
recorded, a second `catch (SegmentationFault, e)` at line 702 is reported
as a duplicate of line 700; `catch (Level2Exception, e)` against a list
holding `Exception` is superfluous; `catch (BusError, e)` is appended; and
the completion calls with the empty and a non-empty list. -/
theorem C9_witness :
    ExceptCheck c9List SegmentationFault "Test.c" 702
      = (c9List, some (ChkWarning.duplicate "SegmentationFault" "Test.c"
          702 700))
    ∧ (∃ e ∈ [Chk.mk Exception 682],
        ExceptIsDerived Level2Exception e.cls = true
        ∧ ExceptCheck [Chk.mk Exception 682] Level2Exception "Test.c" 684
          = ([Chk.mk Exception 682],
             some (ChkWarning.superfluous (className Level2Exception)
               "Test.c" 684 (className e.cls) e.line)))
    ∧ ExceptCheck c9List BusError "Test.c" 703
      = (c9List ++ [{ cls := BusError, line := 703 }], none)
    ∧ ChkInv (ExceptCheck c9List BusError "Test.c" 703).1
    ∧ ExceptCheckBegin (some []) false "Test.c" 708
      = (none, true, some (noCatchLine "Test.c" 708))
    ∧ ExceptCheckBegin (some c9List) false "Test.c" 699
      = (none, true, none) := by
  have h1 := C9_audit_duplicate_shadow_append c9List SegmentationFault
    "Test.c" 702
  have h2 := C9_audit_duplicate_shadow_append [Chk.mk Exception 682]
    Level2Exception "Test.c" 684
  have h3 := C9_audit_duplicate_shadow_append c9List BusError "Test.c" 703
  refine ⟨?_, ?_, ?_, ?_, ?_, ?_⟩
  · exact h1.1 (by unfold ChkInv; decide) 700 (by decide)
  · exact h2.2.1 (by decide) ⟨Chk.mk Exception 682, by decide⟩
  · exact h3.2.2.1 (by decide)
  · exact h3.2.2.2.1 (by unfold ChkInv; decide)
  · exact h3.2.2.2.2.1 "Test.c" 708
  · exact h3.2.2.2.2.2 "Test.c" 699 c9List (by decide)

/-- In every reachable configuration, a frame in state `CAUGHT` is in scope
`CATCH` or `FINALLY`: the only step producing `CAUGHT` is the entry of a
matching `catch` clause, which also moves the scope to `CATCH`. -/
theorem mreach_caught_scope :
    ∀ cfg : List MFrame, MReach cfg → ∀ f ∈ cfg,
      f.state = XState.CAUGHT →
        f.scope = XScope.CATCH ∨ f.scope = XScope.FINALLY := by
  intro cfg hreach
  induction hreach with
  | nil =>
    intro f hf
    cases hf
  | step cfg1 e cfg2 hr hstep ih =>
    intro f hf hcaught
    cases hstep with
    | tryBegin first1 cfgA =>
      rcases List.mem_cons.mp hf with rfl | hf2
      · cases hcaught
      · exact ih f hf2 hcaught
    | enterTry f0 cfgA h =>
      rcases List.mem_cons.mp hf with rfl | hf2
      · have hold := ih f0 (List.mem_cons_self f0 cfgA) hcaught
        rw [h] at hold
        rcases hold with h2 | h2 <;> cases h2
      · exact ih f (List.mem_cons_of_mem f0 hf2) hcaught
    | throwClass c f0 cfgA h =>
      rcases List.mem_cons.mp hf with rfl | hf2
      · cases hcaught
      · exact ih f (List.mem_cons_of_mem f0 hf2) hcaught
    | rethrowStep f0 cfgA h =>
      rcases List.mem_cons.mp hf with rfl | hf2
      · cases hcaught
      · exact ih f (List.mem_cons_of_mem f0 hf2) hcaught
    | catchEnter c ec f0 cfgA hs hp hc hd =>
      rcases List.mem_cons.mp hf with rfl | hf2
      · exact Or.inl rfl
      · exact ih f (List.mem_cons_of_mem f0 hf2) hcaught
    | finallyEnter f0 cfgA h =>
      rcases List.mem_cons.mp hf with rfl | hf2
      · exact Or.inr rfl
      · exact ih f (List.mem_cons_of_mem f0 hf2) hcaught
    | returnStep f0 cfgA h =>
      rcases List.mem_cons.mp hf with rfl | hf2
      · cases hcaught
      · exact ih f (List.mem_cons_of_mem f0 hf2) hcaught
    | popOutermost f0 h =>
      cases hf
    | popNotPending f0 g cfgA hs hp =>
      exact ih f (List.mem_cons_of_mem f0 hf) hcaught
    | popReturnFirst f0 g cfgA hs hp hr2 hf2 =>
      exact ih f (List.mem_cons_of_mem f0 hf) hcaught
    | popPropagate f0 g cfgA c hs hp hc hnr =>
      rcases List.mem_cons.mp hf with rfl | hf2
      · cases hcaught
      · exact ih f (List.mem_cons_of_mem f0 (List.mem_cons_of_mem g hf2))
          hcaught

/-- C6 counterexample: the configuration reached after `try` begins, the
execution pass enters the `try` block, and `throw (Exception, NULL)` is
dispatched — exactly the machine state while the `catch` guards are being
evaluated (`ExceptCatch` reads `state == PENDING` with the scope still
`TRY`) — has its frame in scope `TRY` with state `PENDING`, not `EMPTY`
as the claim requires of every reachable state. -/
theorem C6_counterexample :
    MReach c6Cfg
    ∧ ∃ f ∈ c6Cfg, f.scope = XScope.TRY ∧ f.state ≠ XState.EMPTY := by
  constructor
  · have h1 : MStep [] (Evt.tryBegin true) [c6NewFrame] :=
      MStep.tryBegin true []
    have h2 : MStep [c6NewFrame] Evt.enterTry [c6TryFrame] :=
      MStep.enterTry c6NewFrame [] rfl
    have h3 : MStep [c6TryFrame] (Evt.throwClass Exception) c6Cfg :=
      MStep.throwClass Exception c6TryFrame [] (Or.inl rfl)
    exact MReach.step _ _ _
      (MReach.step _ _ _ (MReach.step _ _ _ MReach.nil h1) h2) h3
  · exact ⟨{ state := XState.PENDING, scope := XScope.TRY,
             cls := some Exception, first := true },
      List.mem_singleton.mpr rfl, rfl, by decide⟩

/-- C6 (amended): in every reachable configuration of the scope/state
machine, a frame whose scope is `TRY` has state `EMPTY` or `PENDING`
(`PENDING` while a thrown exception is being dispatched to the `catch`
clauses); a step increases the number of `CAUGHT` frames only by entering
a `catch` clause whose class the pending exception's class is derived
from, and such an entry leaves the top frame `CAUGHT` in scope `CATCH`;
and the pop of a frame whose exception stayed `PENDING` (no catch matched
it) propagates it, `PENDING`, into the enclosing frame. -/
theorem C6_scope_state_machine :
    (∀ cfg : List MFrame, MReach cfg → ∀ f ∈ cfg,
      f.scope = XScope.TRY →
        f.state = XState.EMPTY ∨ f.state = XState.PENDING)
    ∧ (∀ (cfg : List MFrame) (e : Evt) (cfg2 : List MFrame),
        MStep cfg e cfg2 → caughtCount cfg < caughtCount cfg2 →
        ∃ c f rest ec, e = Evt.catchEnter c ∧ cfg = f :: rest
          ∧ f.scope = XScope.TRY ∧ f.state = XState.PENDING
          ∧ f.cls = some ec ∧ ExceptIsDerived ec c = true)
    ∧ (∀ (cfg cfg2 : List MFrame) (c : CClass),
        MStep cfg (Evt.catchEnter c) cfg2 →
        ∃ f rest, cfg2 = f :: rest ∧ f.state = XState.CAUGHT
          ∧ f.scope = XScope.CATCH)
    ∧ (∀ (f g : MFrame) (cfg cfg2 : List MFrame),
        MStep (f :: g :: cfg) Evt.finallyResolve cfg2 →
        f.state = XState.PENDING →
        ¬(f.cls = some ReturnEvent ∧ f.first = true) →
        ∃ c, f.cls = some c
          ∧ cfg2 = { g with cls := some c, state := XState.PENDING } :: cfg) := by
  refine ⟨?_, ?_, ?_, ?_⟩
  · intro cfg hreach f hf htry
    cases hstate : f.state with
    | EMPTY => exact Or.inl rfl
    | PENDING => exact Or.inr rfl
    | CAUGHT =>
      rcases mreach_caught_scope cfg hreach f hf hstate with h2 | h2 <;>
        rw [htry] at h2 <;> cases h2
  · intro cfg e cfg2 hstep hlt
    cases hstep with
    | tryBegin first1 cfgA =>
      simp [caughtCount, List.countP_cons] at hlt
    | enterTry f0 cfgA h =>
      simp [caughtCount, List.countP_cons] at hlt
    | throwClass c f0 cfgA h =>
      simp [caughtCount, List.countP_cons] at hlt
    | rethrowStep f0 cfgA h =>
      simp [caughtCount, List.countP_cons] at hlt
    | catchEnter c ec f0 cfgA hs hp hc hd =>
      exact ⟨c, f0, cfgA, ec, rfl, rfl, hs, hp, hc, hd⟩
    | finallyEnter f0 cfgA h =>
      simp [caughtCount, List.countP_cons] at hlt
    | returnStep f0 cfgA h =>
      simp [caughtCount, List.countP_cons] at hlt
    | popOutermost f0 h =>
      simp [caughtCount, List.countP_cons] at hlt
    | popNotPending f0 g cfgA hs hp =>
      simp [caughtCount, List.countP_cons] at hlt
    | popReturnFirst f0 g cfgA hs hp hr2 hf2 =>
      simp [caughtCount, List.countP_cons] at hlt
    | popPropagate f0 g cfgA c hs hp hc hnr =>
      simp [caughtCount, List.countP_cons] at hlt
      omega
  · intro cfg cfg2 c hstep
    cases hstep with
    | catchEnter c ec f0 cfgA hs hp hc hd =>
      exact ⟨_, cfgA, rfl, rfl, rfl⟩
  · intro f g cfg cfg2 hstep hp hnr
    cases hstep with
    | popNotPending f0 g0 cfgA hs hp2 =>
      exact absurd hp hp2
    | popReturnFirst f0 g0 cfgA hs hp2 hr2 hf2 =>
      exact absurd ⟨hr2, hf2⟩ hnr
    | popPropagate f0 g0 cfgA c hs hp2 hc hnr2 =>
      exact ⟨c, hc, rfl⟩

/-- Witness for C6 (amended): each conjunct instantiated at a concrete
reachable configuration or step. -/
theorem C6_witness :
    (c6TryFrame.state = XState.EMPTY ∨ c6TryFrame.state = XState.PENDING)
    ∧ (∃ c f rest ec, Evt.catchEnter Throwable = Evt.catchEnter c
        ∧ c6Cfg = f :: rest ∧ f.scope = XScope.TRY
        ∧ f.state = XState.PENDING ∧ f.cls = some ec
        ∧ ExceptIsDerived ec c = true)
    ∧ (∃ f rest,
        ({ state := XState.CAUGHT, scope := XScope.CATCH,
           cls := some Exception, first := true } : MFrame) :: ([] : List MFrame)
          = f :: rest
        ∧ f.state = XState.CAUGHT ∧ f.scope = XScope.CATCH)
    ∧ (∃ c, c6FinFrame.cls = some c
        ∧ ({ c6TryFrame with cls := some c, state := XState.PENDING }
            :: ([] : List MFrame))
          = { c6TryFrame with cls := some c, state := XState.PENDING }
            :: ([] : List MFrame)) := by
  have hreach : MReach c6TryCfg :=
    MReach.step _ _ _
      (MReach.step _ _ _ MReach.nil (MStep.tryBegin true []))
      (MStep.enterTry c6NewFrame [] rfl)
  have hcatch : MStep c6Cfg (Evt.catchEnter Throwable)
      [{ state := XState.CAUGHT, scope := XScope.CATCH,
         cls := some Exception, first := true }] :=
    MStep.catchEnter Throwable Exception
      { state := XState.PENDING, scope := XScope.TRY,
        cls := some Exception, first := true } [] rfl rfl rfl (by decide)
  have hpop : MStep [c6FinFrame, c6TryFrame] Evt.finallyResolve
      [{ c6TryFrame with cls := some Exception, state := XState.PENDING }] :=
    MStep.popPropagate c6FinFrame c6TryFrame [] Exception rfl rfl rfl
      (by decide)
  refine ⟨?_, ?_, ?_, ?_⟩
  · exact C6_scope_state_machine.1 c6TryCfg hreach c6TryFrame
      (List.mem_singleton.mpr rfl) rfl
  · exact C6_scope_state_machine.2.1 c6Cfg (Evt.catchEnter Throwable) _
      hcatch (by decide)
  · exact C6_scope_state_machine.2.2.1 c6Cfg _ Throwable hcatch
  · rcases C6_scope_state_machine.2.2.2 c6FinFrame c6TryFrame [] _ hpop rfl
      (by decide) with ⟨c, hc, _⟩
    exact ⟨c, hc, rfl⟩

end ExceptC
